import Mathlib

set_option maxRecDepth 16384

/-
Verification of the scroll-geth DA-syncer core (rollup/da_syncer):
a shallow embedding of the CalldataBlobSource decode pipeline
(processLogsToDA, getCommitBatchDa, decodeDAV0/decodeDAV1/decodeDAV2,
getBatchTotalL1MessagePopped, NextData), of the DA entry data model
(types.go), of DAQueue.getNextData (da_queue.go), and of
NewCommitBatchDAV1WithBlobDecodeFunc (da/commitV1.go).

External collaborators (L1 RPC client, blob client, ABI machinery, the
da-codec chunk codecs, the kzg4844 commitment primitives and the L1
message database) are passed in explicitly as oracle data in a
`SourceEnv` record: the embedded functions consume their results exactly
where the Go code calls them.  Machine integers are modelled as `Nat`:
no arithmetic in this code relies on wrap-around.
-/

/-- A byte of a Go `[]byte`, modelled as a natural number. -/
abbrev Byte := Nat

/-- `binary.BigEndian.Uint64` over an 8-byte slice. -/
def beUint64 (bs : List Byte) : Nat :=
  List.foldl (fun a b => a * 256 + b) 0 bs

/-- `types.L1MessageTx` as returned by `rawdb.ReadL1Message`; the message
content is opaque for this development, `payload` stands for it. -/
structure L1MessageTx where
  queueIndex : Nat
  payload : Nat
  deriving DecidableEq, Repr

/-- One block record inside a decoded DA chunk; only `numL1Messages`
(`block.NumL1Messages`) is consumed by the embedded code. -/
structure DABlock where
  numL1Messages : Nat
  deriving DecidableEq, Repr

/-- A decoded `DAChunkRawTx` (any codec version): its block list plus an
opaque stand-in for the transaction payloads that
`DecodeTxsFromBlob` fills in. -/
structure DAChunkRawTx where
  blocks : List DABlock
  transactions : Nat
  deriving DecidableEq, Repr

/-- The error values surfaced by the embedded functions.  Each
constructor corresponds to one `fmt.Errorf` site of the source;
constructors carry the data the Go error message interpolates where a
claim depends on it.  `sourceExhausted` is the distinguished sentinel
value `sourceExhaustedErr` / `errSourceExhausted`. -/
inductive DecErr where
  | finalizedQuery
  | sourceExhausted
  | fetchEvents
  | unpackLogErr
  | unknownEventTopic (topic txHash : Nat)
  | fetchTxDataErr
  | txDataTooShort (len : Nat)
  | methodByIdErr
  | unpackArgsErr
  | unknownCodecVersion (v : Nat)
  | unpackChunksErr
  | fetchBlobHashErr
  | fetchBlobErr
  | blobCommitmentErr
  | blobHashMismatch (fromTx fromBlob : Nat)
  | decodeTxsFromBlobErr
  | bitmapLengthErr
  | missingL1Message (idx : Nat)
  | headerByNumberErr
  | blobNilErr
  | factoryErr
  deriving DecidableEq, Repr

/-- Outcome of a Go call: a returned value, a returned error, or a
runtime panic (Go has no checked exceptions; an out-of-range slice
crashes instead of returning an error). -/
inductive GoResult (α : Type) where
  | ok (a : α)
  | err (e : DecErr)
  | goPanic
  deriving DecidableEq, Repr

/-- Modelled from the spec: bit `i` of the skip bitmap decoded by the
external `encoding.DecodeBitmap` (da-codec, not part of this
repository).  The byte string is read as consecutive 32-byte big-endian
words; bit `i` lives in word `i / 256` at bit position `i % 256` of
that word, i.e. bit `i % 8` of the word's byte `31 - (i % 256) / 8`. -/
def bitAt (bytes : List Byte) (i : Nat) : Bool :=
  Nat.testBit (bytes.getD (32 * (i / 256) + 31 - (i % 256) / 8) 0) (i % 8)

/-- All `8 * length` bits of the bitmap byte string, in index order. -/
def bitsOfBytes (bytes : List Byte) : List Bool :=
  (List.range (bytes.length * 8)).map (bitAt bytes)

/-- Modelled from the spec: the external `encoding.DecodeBitmap`
(da-codec, not part of this repository).  The byte length must be a
multiple of 32 and must provide at least `total` bits ("corrupt bitmap
length" is a fatal error); on success the decoded bitmap is the bit
list. -/
def decodeBitmap (bytes : List Byte) (total : Nat) : GoResult (List Bool) :=
  if bytes.length % 32 ≠ 0 then .err .bitmapLengthErr
  else if bytes.length * 8 < total then .err .bitmapLengthErr
  else .ok (bitsOfBytes bytes)

/-- Modelled from the spec: the external `encoding.IsL1MessageSkipped`
(da-codec): bit lookup in the decoded bitmap, indices beyond the bitmap
are not skipped. -/
def isL1MessageSkipped (bm : List Bool) (i : Nat) : Bool :=
  bm.getD i false

/-- Length of the initial run of set bits of a bit list.  The inner
loop `for encoding.IsL1MessageSkipped(skippedBitmap, currentIndex-parentTotalL1MessagePopped) { currentIndex++ }`
of `decodeDAV1`/`decodeDAV2` advances `currentIndex` exactly past the
run of set bits starting at its offset, so its exit index is
`currentIndex + skipRun (bm.drop (currentIndex - parent))`. -/
def skipRun : List Bool → Nat
  | [] => 0
  | b :: rest => if b then skipRun rest + 1 else 0

/-- The message-reconciliation loop of `decodeDAV0`:
`for index := 0; index < totalL1MessagePopped; index++` with body
`if IsL1MessageSkipped(bitmap, currentIndex-parent) { currentIndex++; continue }`,
then `rawdb.ReadL1Message`; a missing message returns the error naming
`currentIndex`.  The `Nat` countdown argument is the number of
remaining loop iterations, `acc` the `l1Txs` slice built so far. -/
def walkV0 (db : Nat → Option L1MessageTx) (bm : List Bool) (parent : Nat) :
    Nat → Nat → List L1MessageTx → GoResult (List L1MessageTx)
  | _current, 0, acc => .ok acc
  | current, t + 1, acc =>
    if isL1MessageSkipped bm (current - parent) then
      walkV0 db bm parent (current + 1) t acc
    else
      match db current with
      | none => .err (.missingL1Message current)
      | some l1Tx => walkV0 db bm parent (current + 1) t (acc ++ [l1Tx])

/-- The message-reconciliation loop of `decodeDAV1`/`decodeDAV2`:
`for index := 0; index < totalL1MessagePopped; index++` whose body first
drains every consecutive set bit
(`for IsL1MessageSkipped(...) { currentIndex++ }`) and then always reads
one message; a missing message returns the error naming the index. -/
def walkV1 (db : Nat → Option L1MessageTx) (bm : List Bool) (parent : Nat) :
    Nat → Nat → List L1MessageTx → GoResult (List L1MessageTx)
  | _current, 0, acc => .ok acc
  | current, t + 1, acc =>
    let cur := current + skipRun (bm.drop (current - parent))
    match db cur with
    | none => .err (.missingL1Message cur)
    | some l1Tx => walkV1 db bm parent (cur + 1) t (acc ++ [l1Tx])

/-- The global indices at which `walkV1` reads messages: each step
drains the run of set bits and reads at the exit index. -/
def walkV1Indices (bm : List Bool) (parent : Nat) : Nat → Nat → List Nat
  | _current, 0 => []
  | current, t + 1 =>
    let cur := current + skipRun (bm.drop (current - parent))
    cur :: walkV1Indices bm parent (cur + 1) t

/-- `getBatchTotalL1MessagePopped`:
`binary.BigEndian.Uint64(data[17:25])`.  Slicing `data[17:25]` of a
slice shorter than 25 bytes is a Go runtime panic (slice bounds out of
range), not an error return. -/
def getBatchTotalL1MessagePopped (data : List Byte) : GoResult Nat :=
  if 25 ≤ data.length then .ok (beUint64 ((data.drop 17).take 8))
  else .goPanic

/-- The nested loop summing `block.NumL1Messages` over all chunks. -/
def totalL1MessagePoppedOf (chunks : List DAChunkRawTx) : Nat :=
  List.foldl (fun acc c => List.foldl (fun a b => a + b.numL1Messages) acc c.blocks) 0 chunks

/-- A `types.Log` as consumed here: `Topics[0]`, `BlockNumber`,
`TxHash` (all opaque numbers). -/
structure Log where
  topic : Nat
  blockNumber : Nat
  txHash : Nat
  deriving DecidableEq, Repr

/-- The `commitBatchArgs` calldata record. -/
structure CommitBatchArgs where
  version : Nat
  parentBatchHeader : List Byte
  chunks : List (List Byte)
  skippedL1MessageBitmap : List Byte
  deriving DecidableEq, Repr

/-- The `commitBatchWithBlobProofArgs` calldata record: the same fields
plus the extra `BlobDataProof`. -/
structure CommitBatchWithBlobProofArgs where
  version : Nat
  parentBatchHeader : List Byte
  chunks : List (List Byte)
  skippedL1MessageBitmap : List Byte
  blobDataProof : List Byte
  deriving DecidableEq, Repr

/-- Modelled from the spec: the scroll-chain ABI (not under src/) has
exactly two commit-method signatures, `commitBatch` and
`commitBatchWithBlobProof`; `MethodById` resolves a 4-byte selector to
one of them or fails. -/
inductive MethodShape where
  | commitBatch
  | commitBatchWithBlobProof
  deriving DecidableEq, Repr

/-- The external collaborators of `CalldataBlobSource`, as oracle data:
L1 client queries, blob client, ABI decode machinery, the da-codec
chunk/blob codecs, the kzg4844 commitment primitives and the L1 message
database.  Blobs, commitments and hashes are opaque numbers. -/
structure SourceEnv where
  commitTopic : Nat
  revertTopic : Nat
  finalizeTopic : Nat
  getFinalizedBlockNumber : Except Unit Nat
  fetchRollupEventsInRange : Nat → Nat → Except Unit (List Log)
  unpackLogBatchIndex : Log → Except Unit Nat
  fetchTxData : Log → Except Unit (List Byte)
  methodById : List Byte → Except Unit MethodShape
  unpackCommitBatch : List Byte → Except Unit CommitBatchArgs
  unpackCommitBatchWithProof : List Byte → Except Unit CommitBatchWithBlobProofArgs
  decodeChunksV0 : List (List Byte) → Except Unit (List DAChunkRawTx)
  decodeChunksV1 : List (List Byte) → Except Unit (List DAChunkRawTx)
  decodeChunksV2 : List (List Byte) → Except Unit (List DAChunkRawTx)
  fetchTxBlobHash : Log → Except Unit Nat
  getBlobByVersionedHash : Nat → Except Unit Nat
  blobToCommitment : Nat → Except Unit Nat
  calcBlobHashV1 : Nat → Nat
  decodeTxsFromBlobV1 : Nat → List DAChunkRawTx → Except Unit (List DAChunkRawTx)
  decodeTxsFromBlobV2 : Nat → List DAChunkRawTx → Except Unit (List DAChunkRawTx)
  readL1Message : Nat → Option L1MessageTx

/-- The DA entry variants of types.go (`CommitBatchDaV0`,
`CommitBatchDaV1`, `CommitBatchDaV2`, `RevertBatchDA`,
`FinalizeBatchDA`); the `DaType` tag is the constructor. -/
inductive DAEntry where
  | commitBatchDaV0 (version batchIndex parentTotalL1MessagePopped : Nat)
      (skippedL1MessageBitmap : List Byte) (chunks : List DAChunkRawTx)
      (l1Txs : List L1MessageTx) (l1BlockNumber : Nat)
  | commitBatchDaV1 (version batchIndex parentTotalL1MessagePopped : Nat)
      (skippedL1MessageBitmap : List Byte) (chunks : List DAChunkRawTx)
      (l1Txs : List L1MessageTx) (l1BlockNumber : Nat)
  | commitBatchDaV2 (version batchIndex parentTotalL1MessagePopped : Nat)
      (skippedL1MessageBitmap : List Byte) (chunks : List DAChunkRawTx)
      (l1Txs : List L1MessageTx) (l1BlockNumber : Nat)
  | revertBatchDA (batchIndex l1BlockNumber : Nat)
  | finalizeBatchDA (batchIndex l1BlockNumber : Nat)
  deriving DecidableEq, Repr

/-- `NewCommitBatchDaV0`, with the argument list of its call sites in
the CalldataBlobSource file. -/
def NewCommitBatchDaV0 (version batchIndex parentTotalL1MessagePopped : Nat)
    (skippedL1MessageBitmap : List Byte) (chunks : List DAChunkRawTx)
    (l1Txs : List L1MessageTx) (l1BlockNumber : Nat) : DAEntry :=
  .commitBatchDaV0 version batchIndex parentTotalL1MessagePopped
    skippedL1MessageBitmap chunks l1Txs l1BlockNumber

/-- `NewCommitBatchDaV1`. -/
def NewCommitBatchDaV1 (version batchIndex parentTotalL1MessagePopped : Nat)
    (skippedL1MessageBitmap : List Byte) (chunks : List DAChunkRawTx)
    (l1Txs : List L1MessageTx) (l1BlockNumber : Nat) : DAEntry :=
  .commitBatchDaV1 version batchIndex parentTotalL1MessagePopped
    skippedL1MessageBitmap chunks l1Txs l1BlockNumber

/-- `NewCommitBatchDaV2`. -/
def NewCommitBatchDaV2 (version batchIndex parentTotalL1MessagePopped : Nat)
    (skippedL1MessageBitmap : List Byte) (chunks : List DAChunkRawTx)
    (l1Txs : List L1MessageTx) (l1BlockNumber : Nat) : DAEntry :=
  .commitBatchDaV2 version batchIndex parentTotalL1MessagePopped
    skippedL1MessageBitmap chunks l1Txs l1BlockNumber

/-- `NewRevertBatchDA` (types.go): the struct literal sets only
`DaType` and `BatchIndex`; `L1BlockNumber` keeps Go's zero value 0. -/
def NewRevertBatchDA (batchIndex : Nat) : DAEntry :=
  .revertBatchDA batchIndex 0

/-- `NewFinalizeBatchDA` (types.go): the struct literal sets only
`DaType` and `BatchIndex`; `L1BlockNumber` keeps Go's zero value 0. -/
def NewFinalizeBatchDA (batchIndex : Nat) : DAEntry :=
  .finalizeBatchDA batchIndex 0

/-- The `GetL1BlockNumber` interface method of every entry variant. -/
def DAEntry.GetL1BlockNumber : DAEntry → Nat
  | .commitBatchDaV0 _ _ _ _ _ _ bn => bn
  | .commitBatchDaV1 _ _ _ _ _ _ bn => bn
  | .commitBatchDaV2 _ _ _ _ _ _ bn => bn
  | .revertBatchDA _ bn => bn
  | .finalizeBatchDA _ bn => bn

/-- `decodeDAV0`: decode the calldata chunks, read
`parentTotalL1MessagePopped` from the parent header, sum the per-block
message counts, decode the bitmap, run the V0 reconciliation walk and
build the entry. -/
def decodeDAV0 (env : SourceEnv) (batchIndex : Nat) (vLog : Log)
    (args : CommitBatchArgs) : GoResult DAEntry :=
  match env.decodeChunksV0 args.chunks with
  | .error _ => .err .unpackChunksErr
  | .ok chunks =>
    match getBatchTotalL1MessagePopped args.parentBatchHeader with
    | .goPanic => .goPanic
    | .err e => .err e
    | .ok parentTotalL1MessagePopped =>
      let totalL1MessagePopped := totalL1MessagePoppedOf chunks
      match decodeBitmap args.skippedL1MessageBitmap totalL1MessagePopped with
      | .goPanic => .goPanic
      | .err _ => .err .bitmapLengthErr
      | .ok skippedBitmap =>
        match walkV0 env.readL1Message skippedBitmap parentTotalL1MessagePopped
            parentTotalL1MessagePopped totalL1MessagePopped [] with
        | .goPanic => .goPanic
        | .err e => .err e
        | .ok l1Txs =>
          .ok (NewCommitBatchDaV0 args.version batchIndex parentTotalL1MessagePopped
            args.skippedL1MessageBitmap chunks l1Txs vLog.blockNumber)

/-- `decodeDAV1`: decode the chunk structure, fetch the transaction's
versioned blob hash and the blob, recompute the commitment-derived
hash, compare, decode the blob transactions into the chunks, then the
same reconciliation as V2 (the drain-style walk). -/
def decodeDAV1 (env : SourceEnv) (batchIndex : Nat) (vLog : Log)
    (args : CommitBatchArgs) : GoResult DAEntry :=
  match env.decodeChunksV1 args.chunks with
  | .error _ => .err .unpackChunksErr
  | .ok chunks =>
    match env.fetchTxBlobHash vLog with
    | .error _ => .err .fetchBlobHashErr
    | .ok versionedHash =>
      match env.getBlobByVersionedHash versionedHash with
      | .error _ => .err .fetchBlobErr
      | .ok blob =>
        match env.blobToCommitment blob with
        | .error _ => .err .blobCommitmentErr
        | .ok c =>
          let blobVersionedHash := env.calcBlobHashV1 c
          if blobVersionedHash ≠ versionedHash then
            .err (.blobHashMismatch versionedHash blobVersionedHash)
          else
            match env.decodeTxsFromBlobV1 blob chunks with
            | .error _ => .err .decodeTxsFromBlobErr
            | .ok chunksFilled =>
              match getBatchTotalL1MessagePopped args.parentBatchHeader with
              | .goPanic => .goPanic
              | .err e => .err e
              | .ok parentTotalL1MessagePopped =>
                let totalL1MessagePopped := totalL1MessagePoppedOf chunksFilled
                match decodeBitmap args.skippedL1MessageBitmap totalL1MessagePopped with
                | .goPanic => .goPanic
                | .err _ => .err .bitmapLengthErr
                | .ok skippedBitmap =>
                  match walkV1 env.readL1Message skippedBitmap parentTotalL1MessagePopped
                      parentTotalL1MessagePopped totalL1MessagePopped [] with
                  | .goPanic => .goPanic
                  | .err e => .err e
                  | .ok l1Txs =>
                    .ok (NewCommitBatchDaV1 args.version batchIndex parentTotalL1MessagePopped
                      args.skippedL1MessageBitmap chunksFilled l1Txs vLog.blockNumber)

/-- `decodeDAV2`: identical flow to `decodeDAV1` with the codecv2
routines. -/
def decodeDAV2 (env : SourceEnv) (batchIndex : Nat) (vLog : Log)
    (args : CommitBatchArgs) : GoResult DAEntry :=
  match env.decodeChunksV2 args.chunks with
  | .error _ => .err .unpackChunksErr
  | .ok chunks =>
    match env.fetchTxBlobHash vLog with
    | .error _ => .err .fetchBlobHashErr
    | .ok versionedHash =>
      match env.getBlobByVersionedHash versionedHash with
      | .error _ => .err .fetchBlobErr
      | .ok blob =>
        match env.blobToCommitment blob with
        | .error _ => .err .blobCommitmentErr
        | .ok c =>
          let blobVersionedHash := env.calcBlobHashV1 c
          if blobVersionedHash ≠ versionedHash then
            .err (.blobHashMismatch versionedHash blobVersionedHash)
          else
            match env.decodeTxsFromBlobV2 blob chunks with
            | .error _ => .err .decodeTxsFromBlobErr
            | .ok chunksFilled =>
              match getBatchTotalL1MessagePopped args.parentBatchHeader with
              | .goPanic => .goPanic
              | .err e => .err e
              | .ok parentTotalL1MessagePopped =>
                let totalL1MessagePopped := totalL1MessagePoppedOf chunksFilled
                match decodeBitmap args.skippedL1MessageBitmap totalL1MessagePopped with
                | .goPanic => .goPanic
                | .err _ => .err .bitmapLengthErr
                | .ok skippedBitmap =>
                  match walkV1 env.readL1Message skippedBitmap parentTotalL1MessagePopped
                      parentTotalL1MessagePopped totalL1MessagePopped [] with
                  | .goPanic => .goPanic
                  | .err e => .err e
                  | .ok l1Txs =>
                    .ok (NewCommitBatchDaV2 args.version batchIndex parentTotalL1MessagePopped
                      args.skippedL1MessageBitmap chunksFilled l1Txs vLog.blockNumber)

/-- Strips `BlobDataProof`: the `usedArgs` record built in the
`commitBatchWithBlobProof` branch of `getCommitBatchDa`. -/
def usedArgsOf (args : CommitBatchWithBlobProofArgs) : CommitBatchArgs :=
  { version := args.version
    parentBatchHeader := args.parentBatchHeader
    chunks := args.chunks
    skippedL1MessageBitmap := args.skippedL1MessageBitmap }

/-- `getCommitBatchDa`: the genesis short-circuit, the transaction-data
fetch, the selector lookup, the per-shape argument decode (the ABI
`Unpack` and `Copy` steps folded into one oracle per shape), the
version dispatch for `commitBatch`, and the direct `decodeDAV2` call
for `commitBatchWithBlobProof`. -/
def getCommitBatchDa (env : SourceEnv) (batchIndex : Nat) (vLog : Log) :
    GoResult DAEntry :=
  if batchIndex = 0 then
    .ok (NewCommitBatchDaV0 0 batchIndex 0 [] [] [] 0)
  else
    match env.fetchTxData vLog with
    | .error _ => .err .fetchTxDataErr
    | .ok txData =>
      if txData.length < 4 then .err (.txDataTooShort txData.length)
      else
        match env.methodById (txData.take 4) with
        | .error _ => .err .methodByIdErr
        | .ok shape =>
          match shape with
          | .commitBatch =>
            match env.unpackCommitBatch (txData.drop 4) with
            | .error _ => .err .unpackArgsErr
            | .ok args =>
              match args.version with
              | 0 => decodeDAV0 env batchIndex vLog args
              | 1 => decodeDAV1 env batchIndex vLog args
              | 2 => decodeDAV2 env batchIndex vLog args
              | v => .err (.unknownCodecVersion v)
          | .commitBatchWithBlobProof =>
            match env.unpackCommitBatchWithProof (txData.drop 4) with
            | .error _ => .err .unpackArgsErr
            | .ok args =>
              decodeDAV2 env batchIndex vLog (usedArgsOf args)

/-- The body of one iteration of the `processLogsToDA` switch: classify
the log by its topic and produce its entry (or fail). -/
def processLog (env : SourceEnv) (vLog : Log) : GoResult DAEntry :=
  if vLog.topic = env.commitTopic then
    match env.unpackLogBatchIndex vLog with
    | .error _ => .err .unpackLogErr
    | .ok batchIndex => getCommitBatchDa env batchIndex vLog
  else if vLog.topic = env.revertTopic then
    match env.unpackLogBatchIndex vLog with
    | .error _ => .err .unpackLogErr
    | .ok batchIndex => .ok (NewRevertBatchDA batchIndex)
  else if vLog.topic = env.finalizeTopic then
    match env.unpackLogBatchIndex vLog with
    | .error _ => .err .unpackLogErr
    | .ok batchIndex => .ok (NewFinalizeBatchDA batchIndex)
  else
    .err (.unknownEventTopic vLog.topic vLog.txHash)

/-- The `processLogsToDA` loop: append one produced entry per log,
returning early on the first failure; `acc` is the `da` slice. -/
def processLogsToDAAux (env : SourceEnv) :
    List DAEntry → List Log → GoResult (List DAEntry)
  | acc, [] => .ok acc
  | acc, vLog :: rest =>
    match processLog env vLog with
    | .goPanic => .goPanic
    | .err e => .err e
    | .ok daEntry => processLogsToDAAux env (acc ++ [daEntry]) rest

/-- `processLogsToDA`. -/
def processLogsToDA (env : SourceEnv) (logs : List Log) : GoResult (List DAEntry) :=
  processLogsToDAAux env [] logs

/-- `callDataBlobSourceFetchBlockRange = 500`. -/
def callDataBlobSourceFetchBlockRange : Nat := 500

/-- `CalldataBlobSource.NextData`: compute
`to := l1height + callDataBlobSourceFetchBlockRange`, query the
finalized height fresh, clamp `to` to it, return the exhausted sentinel
when `l1height > to`, otherwise fetch the rollup events of
`[l1height, to]` and decode them; `l1height` is set to `to + 1` only
when decoding returned no error.  The pair is (result, new `l1height`). -/
def NextData (env : SourceEnv) (l1height : Nat) :
    GoResult (List DAEntry) × Nat :=
  let to0 := l1height + callDataBlobSourceFetchBlockRange
  match env.getFinalizedBlockNumber with
  | .error _ => (.err .finalizedQuery, l1height)
  | .ok l1Finalized =>
    let t := if to0 > l1Finalized then l1Finalized else to0
    if l1height > t then (.err .sourceExhausted, l1height)
    else
      match env.fetchRollupEventsInRange l1height t with
      | .error _ => (.err .fetchEvents, l1height)
      | .ok logs =>
        match processLogsToDA env logs with
        | .ok da => (.ok da, t + 1)
        | .err e => (.err e, l1height)
        | .goPanic => (.goPanic, l1height)

/-- The external collaborators of `NewCommitBatchDAV1WithBlobDecodeFunc`
(da/commitV1.go); `newCommitBatchDAV0WithChunks` stands for the
`NewCommitBatchDAV0WithChunks` constructor of commitV0.go, which is not
part of this source set. -/
structure CommitV1Env where
  decodeChunksV1 : List (List Byte) → Except Unit (List DAChunkRawTx)
  fetchTxBlobHash : Log → Except Unit Nat
  getHeaderTimeByNumber : Nat → Except Unit Nat
  getBlobByVersionedHashAndBlockTime : Nat → Nat → Except Unit (Option Nat)
  blobToCommitment : Nat → Except Unit Nat
  calcBlobHashV1 : Nat → Nat
  newCommitBatchDAV0WithChunks :
    Nat → Nat → List Byte → List DAChunkRawTx → List Byte → Nat → GoResult DAEntry

/-- `NewCommitBatchDAV1WithBlobDecodeFunc` (da/commitV1.go): decode the
chunk structure, fetch the versioned hash, the header time and the
blob, reject a nil blob, recompute the commitment-derived hash and
require equality, run the supplied blob-transaction decode function,
then delegate to the V0 constructor. -/
def NewCommitBatchDAV1WithBlobDecodeFunc (env : CommitV1Env) (vLog : Log)
    (version batchIndex : Nat) (parentBatchHeader : List Byte)
    (chunks : List (List Byte)) (skippedL1MessageBitmap : List Byte)
    (decodeTxsFromBlobFunc : Nat → List DAChunkRawTx → Except Unit (List DAChunkRawTx)) :
    GoResult DAEntry :=
  match env.decodeChunksV1 chunks with
  | .error _ => .err .unpackChunksErr
  | .ok decodedChunks =>
    match env.fetchTxBlobHash vLog with
    | .error _ => .err .fetchBlobHashErr
    | .ok versionedHash =>
      match env.getHeaderTimeByNumber vLog.blockNumber with
      | .error _ => .err .headerByNumberErr
      | .ok headerTime =>
        match env.getBlobByVersionedHashAndBlockTime versionedHash headerTime with
        | .error _ => .err .fetchBlobErr
        | .ok none => .err .blobNilErr
        | .ok (some blob) =>
          match env.blobToCommitment blob with
          | .error _ => .err .blobCommitmentErr
          | .ok c =>
            let blobVersionedHash := env.calcBlobHashV1 c
            if blobVersionedHash ≠ versionedHash then
              .err (.blobHashMismatch versionedHash blobVersionedHash)
            else
              match decodeTxsFromBlobFunc blob decodedChunks with
              | .error _ => .err .decodeTxsFromBlobErr
              | .ok chunksFilled =>
                env.newCommitBatchDAV0WithChunks version batchIndex
                  parentBatchHeader chunksFilled skippedL1MessageBitmap vLog.blockNumber

/-- One modelled Range-Advancing Source as the queue sees it: the
outcome of its next `NextData` step and the value `L1Height()` returns
afterwards. -/
structure QSource where
  nextResult : GoResult (List DAEntry)
  l1HeightAfter : Nat
  deriving DecidableEq

/-- The `DAQueue` state: watermark, current (nullable) source, buffer. -/
structure QState where
  l1height : Nat
  dataSource : Option QSource
  da : List DAEntry
  deriving DecidableEq

/-- `DAQueue.getNextData` specialised to a nil `dataSource`: open the
next source from the factory stream, step it, and on the exhausted
sentinel recurse after capturing the source's height and discarding it
(da_queue.go line 48, `return dq.getNextData(ctx)`).  The second
component counts the nested `getNextData` invocations, i.e. the
call-stack depth of that recursion. -/
def getNextDataAux (l1height : Nat) :
    List (Except Unit QSource) → GoResult (QState × List (Except Unit QSource)) × Nat
  | [] => (.err .factoryErr, 1)
  | beh :: rest =>
    match beh with
    | .error _ => (.err .factoryErr, 1)
    | .ok src =>
      match src.nextResult with
      | .err .sourceExhausted =>
        let r := getNextDataAux src.l1HeightAfter rest
        (r.1, r.2 + 1)
      | .err e => (.err e, 1)
      | .goPanic => (.goPanic, 1)
      | .ok da =>
        (.ok ({ l1height := l1height, dataSource := some src, da := da }, rest), 1)

/-- `DAQueue.getNextData` (da_queue.go): if a source is open, step it;
on the exhausted sentinel set `l1height` to the source's `L1Height()`,
discard the source and call `getNextData` again (each further recursion
opens a fresh source from the factory stream).  Result and nested-call
count. -/
def getNextData (st : QState) (stream : List (Except Unit QSource)) :
    GoResult (QState × List (Except Unit QSource)) × Nat :=
  match st.dataSource with
  | some src =>
    match src.nextResult with
    | .err .sourceExhausted =>
      let r := getNextDataAux src.l1HeightAfter stream
      (r.1, r.2 + 1)
    | .err e => (.err e, 1)
    | .goPanic => (.goPanic, 1)
    | .ok da => (.ok ({ st with da := da }, stream), 1)
  | none => getNextDataAux st.l1height stream

/-- Follows the spec's words (§4.1 output guarantee), for comparison
with the source walks: the ordered list of messages at the non-skipped
global indices in `[parent, parent + total)`. -/
def specAttachedMessages (db : Nat → Option L1MessageTx) (bm : List Bool)
    (parent total : Nat) : List L1MessageTx :=
  (List.range total).filterMap
    (fun o => if isL1MessageSkipped bm o then none else db (parent + o))

/-- Splitting a `filterMap` over `List.range (t+1)` into its head and a
shifted tail. -/
theorem rangeSuccFilterMap {α : Type} (f : Nat → Option α) (t : Nat) :
    (List.range (t + 1)).filterMap f
      = (f 0).toList ++ (List.range t).filterMap (fun o => f (o + 1)) := by
  rw [List.range_succ_eq_map, List.filterMap_cons]
  cases h : f 0 <;>
    simp [h, List.filterMap_map, Function.comp_def, Nat.succ_eq_add_one]

/-- `getD` through `drop`. -/
theorem getD_drop_eq (bm : List Bool) (off j : Nat) :
    (bm.drop off).getD j false = bm.getD (off + j) false := by
  induction bm generalizing off with
  | nil => simp
  | cons b rest ih =>
    cases off with
    | zero => simp
    | succ o =>
      simp only [List.drop_succ_cons, Nat.succ_add, List.getD_cons_succ]
      exact ih o

/-- The bit right after the initial run of set bits is clear (or out of
range, which also reads as clear). -/
theorem skipRun_getD (l : List Bool) : l.getD (skipRun l) false = false := by
  induction l with
  | nil => simp
  | cons b rest ih =>
    by_cases hb : b = true
    · subst hb
      simp only [skipRun, if_true, List.getD_cons_succ]
      exact ih
    · simp only [Bool.not_eq_true] at hb
      simp [skipRun, hb]

/-- The exit index of the drain loop is never a skipped slot. -/
theorem isSkipped_after_run (bm : List Bool) (off : Nat) :
    isL1MessageSkipped bm (off + skipRun (bm.drop off)) = false := by
  unfold isL1MessageSkipped
  rw [← getD_drop_eq]
  exact skipRun_getD _

/-- On success the V0 walk appends exactly the messages at the
non-skipped offsets of the remaining window. -/
theorem walkV0_ok_eq (db : Nat → Option L1MessageTx) (bm : List Bool) (parent : Nat) :
    ∀ (total k : Nat) (acc l : List L1MessageTx),
      walkV0 db bm parent (parent + k) total acc = .ok l →
      l = acc ++ (List.range total).filterMap
            (fun o => if isL1MessageSkipped bm (k + o) then none
                      else db (parent + (k + o))) := by
  intro total
  induction total with
  | zero =>
    intro k acc l h
    simp only [walkV0] at h
    cases h
    simp
  | succ t ih =>
    intro k acc l h
    simp only [walkV0, Nat.add_sub_cancel_left] at h
    rw [rangeSuccFilterMap]
    have harr : ∀ o : Nat, k + 1 + o = k + (o + 1) := fun o => by omega
    cases hb : isL1MessageSkipped bm k with
    | true =>
      rw [if_pos hb] at h
      have := ih (k + 1) acc l h
      rw [this]
      simp only [Nat.add_zero, hb, if_pos, Option.toList_none, List.nil_append]
      simp only [harr]
    | false =>
      rw [if_neg (by simp [hb])] at h
      cases hdb : db (parent + k) with
      | none => rw [hdb] at h; cases h
      | some m =>
        rw [hdb] at h
        have := ih (k + 1) (acc ++ [m]) l h
        rw [this]
        simp only [Nat.add_zero, hb, Bool.false_eq_true, if_false, hdb,
          Option.toList_some, List.append_assoc, List.singleton_append]
        simp only [harr]

/-- On success of the V0 walk, every non-skipped offset of the window
had a message in the store. -/
theorem walkV0_ok_present (db : Nat → Option L1MessageTx) (bm : List Bool) (parent : Nat) :
    ∀ (total k : Nat) (acc l : List L1MessageTx),
      walkV0 db bm parent (parent + k) total acc = .ok l →
      ∀ o, o < total → isL1MessageSkipped bm (k + o) = false →
        (db (parent + (k + o))).isSome := by
  intro total
  induction total with
  | zero => intro k acc l _ o ho; omega
  | succ t ih =>
    intro k acc l h o ho hns
    simp only [walkV0, Nat.add_sub_cancel_left] at h
    cases hb : isL1MessageSkipped bm k with
    | true =>
      rw [if_pos hb] at h
      cases o with
      | zero => rw [Nat.add_zero] at hns; rw [hns] at hb; cases hb
      | succ o2 =>
        have := ih (k + 1) acc l h o2 (by omega)
        rw [show k + 1 + o2 = k + (o2 + 1) from by omega] at this
        exact this hns
    | false =>
      rw [if_neg (by simp [hb])] at h
      cases hdb : db (parent + k) with
      | none => rw [hdb] at h; cases h
      | some m =>
        rw [hdb] at h
        cases o with
        | zero => simp [hdb]
        | succ o2 =>
          have := ih (k + 1) (acc ++ [m]) l h o2 (by omega)
          rw [show k + 1 + o2 = k + (o2 + 1) from by omega] at this
          exact this hns

/-- A missing-message failure of the V0 walk names a store index that is
absent, non-skipped, and inside the remaining window. -/
theorem walkV0_err_eq (db : Nat → Option L1MessageTx) (bm : List Bool) (parent : Nat) :
    ∀ (total k : Nat) (acc : List L1MessageTx) (i : Nat),
      walkV0 db bm parent (parent + k) total acc = .err (.missingL1Message i) →
      db i = none ∧ isL1MessageSkipped bm (i - parent) = false ∧
        parent + k ≤ i ∧ i < parent + k + total := by
  intro total
  induction total with
  | zero => intro k acc i h; simp [walkV0] at h
  | succ t ih =>
    intro k acc i h
    simp only [walkV0, Nat.add_sub_cancel_left] at h
    cases hb : isL1MessageSkipped bm k with
    | true =>
      rw [if_pos hb] at h
      have := ih (k + 1) acc i h
      exact ⟨this.1, this.2.1, by omega, by omega⟩
    | false =>
      rw [if_neg (by simp [hb])] at h
      cases hdb : db (parent + k) with
      | none =>
        rw [hdb] at h
        have hik : parent + k = i := by
          have := h
          simp only [GoResult.err.injEq, DecErr.missingL1Message.injEq] at this
          exact this
        refine ⟨?_, ?_, by omega, by omega⟩
        · rw [← hik]; exact hdb
        · rw [← hik, Nat.add_sub_cancel_left]; exact hb
      | some m =>
        rw [hdb] at h
        have := ih (k + 1) (acc ++ [m]) i h
        exact ⟨this.1, this.2.1, by omega, by omega⟩

/-- On success the V1/V2 walk appends exactly the messages at its drain
indices, and every drain index had a message in the store. -/
theorem walkV1_ok_eq (db : Nat → Option L1MessageTx) (bm : List Bool) (parent : Nat) :
    ∀ (total current : Nat) (acc l : List L1MessageTx),
      walkV1 db bm parent current total acc = .ok l →
      l = acc ++ (walkV1Indices bm parent current total).filterMap db ∧
      ∀ i ∈ walkV1Indices bm parent current total, (db i).isSome := by
  intro total
  induction total with
  | zero =>
    intro current acc l h
    simp only [walkV1] at h
    cases h
    simp [walkV1Indices]
  | succ t ih =>
    intro current acc l h
    simp only [walkV1] at h
    simp only [walkV1Indices]
    cases hdb : db (current + skipRun (bm.drop (current - parent))) with
    | none => rw [hdb] at h; cases h
    | some m =>
      rw [hdb] at h
      have := ih (current + skipRun (bm.drop (current - parent)) + 1) (acc ++ [m]) l h
      constructor
      · rw [this.1]
        simp [List.filterMap_cons, hdb]
      · intro i hi
        rcases List.mem_cons.mp hi with hi | hi
        · rw [hi, hdb]; rfl
        · exact this.2 i hi

/-- A missing-message failure of the V1/V2 walk names a store index
that is absent, non-skipped, and at or above the walk position. -/
theorem walkV1_err_eq (db : Nat → Option L1MessageTx) (bm : List Bool) (parent : Nat) :
    ∀ (total current : Nat) (acc : List L1MessageTx) (i : Nat),
      parent ≤ current →
      walkV1 db bm parent current total acc = .err (.missingL1Message i) →
      db i = none ∧ isL1MessageSkipped bm (i - parent) = false ∧ current ≤ i := by
  intro total
  induction total with
  | zero => intro current acc i _ h; simp [walkV1] at h
  | succ t ih =>
    intro current acc i hpc h
    simp only [walkV1] at h
    cases hdb : db (current + skipRun (bm.drop (current - parent))) with
    | none =>
      rw [hdb] at h
      have hic : current + skipRun (bm.drop (current - parent)) = i := by
        simpa only [GoResult.err.injEq, DecErr.missingL1Message.injEq] using h
      refine ⟨by rw [← hic]; exact hdb, ?_, by omega⟩
      rw [← hic,
        show current + skipRun (bm.drop (current - parent)) - parent
          = (current - parent) + skipRun (bm.drop (current - parent)) from by omega]
      exact isSkipped_after_run bm (current - parent)
    | some m =>
      rw [hdb] at h
      have := ih (current + skipRun (bm.drop (current - parent)) + 1) (acc ++ [m]) i
        (by omega) h
      exact ⟨this.1, this.2.1, by omega⟩

/-- `walkV1Indices` always has exactly `total` entries: the V1/V2 walk
reads one message per loop iteration no matter how many slots are
skipped. -/
theorem walkV1Indices_length (bm : List Bool) (parent : Nat) :
    ∀ (total current : Nat), (walkV1Indices bm parent current total).length = total := by
  intro total
  induction total with
  | zero => intro c; simp [walkV1Indices]
  | succ t ih => intro c; simp [walkV1Indices, ih]

/-- Every drain index is non-skipped and at or above the walk
position. -/
theorem walkV1Indices_not_skipped (bm : List Bool) (parent : Nat) :
    ∀ (total current : Nat), parent ≤ current →
      ∀ i ∈ walkV1Indices bm parent current total,
        isL1MessageSkipped bm (i - parent) = false ∧ current ≤ i := by
  intro total
  induction total with
  | zero => intro c _ i hi; simp [walkV1Indices] at hi
  | succ t ih =>
    intro current hpc i hi
    simp only [walkV1Indices, List.mem_cons] at hi
    rcases hi with hi | hi
    · subst hi
      refine ⟨?_, by omega⟩
      rw [show current + skipRun (bm.drop (current - parent)) - parent
          = (current - parent) + skipRun (bm.drop (current - parent)) from by omega]
      exact isSkipped_after_run bm (current - parent)
    · have := ih (current + skipRun (bm.drop (current - parent)) + 1) (by omega) i hi
      exact ⟨this.1, by omega⟩

/-- A `filterMap` whose function succeeds on every element keeps the
length. -/
theorem filterMap_length_of_isSome {α β : Type} (f : α → Option β) :
    ∀ l : List α, (∀ a ∈ l, (f a).isSome) → (l.filterMap f).length = l.length := by
  intro l
  induction l with
  | nil => simp
  | cons a rest ih =>
    intro h
    cases hfa : f a with
    | none =>
      have := h a (by simp)
      rw [hfa] at this
      cases this
    | some b =>
      simp only [List.filterMap_cons, hfa, List.length_cons]
      rw [ih (fun x hx => h x (by simp [hx]))]

/-- A sample L1 message sitting at global queue index 1. -/
def msg1 : L1MessageTx := ⟨1, 11⟩

/-- A baseline oracle environment for concrete evaluations: topics 1/2/3
for commit/revert/finalize, finalized height 1000, an empty event range,
a blob pipeline whose recomputed hash (42) matches the transaction's
versioned hash, and a message store holding only `msg1` at index 1. -/
def envBase : SourceEnv where
  commitTopic := 1
  revertTopic := 2
  finalizeTopic := 3
  getFinalizedBlockNumber := .ok 1000
  fetchRollupEventsInRange := fun _ _ => .ok []
  unpackLogBatchIndex := fun l => .ok l.txHash
  fetchTxData := fun _ => .error ()
  methodById := fun _ => .error ()
  unpackCommitBatch := fun _ => .error ()
  unpackCommitBatchWithProof := fun _ => .error ()
  decodeChunksV0 := fun _ => .error ()
  decodeChunksV1 := fun _ => .error ()
  decodeChunksV2 := fun _ => .error ()
  fetchTxBlobHash := fun _ => .ok 42
  getBlobByVersionedHash := fun _ => .ok 6
  blobToCommitment := fun _ => .ok 7
  calcBlobHashV1 := fun _ => 42
  decodeTxsFromBlobV1 := fun _ ch => .ok ch
  decodeTxsFromBlobV2 := fun _ ch => .ok ch
  readL1Message := fun i => if i = 1 then some msg1 else none

/-- One decoded chunk with one block consuming one L1 message. -/
def chunks1 : List DAChunkRawTx := [⟨[⟨1⟩], 0⟩]

/-- A 25-byte parent batch header whose total-popped field is 0. -/
def header25 : List Byte := List.replicate 25 0

/-- A 32-byte skip bitmap with exactly bit 0 set. -/
def bmBytes1 : List Byte := List.replicate 31 0 ++ [1]

/-- Version-1 commit arguments: the chunk list is decoded by the oracle,
so its raw bytes are irrelevant here. -/
def args1 : CommitBatchArgs := ⟨1, header25, [], bmBytes1⟩

/-- The log context of the sample commit: block 20, tx hash 30. -/
def log1 : Log := ⟨1, 20, 30⟩

/-- The environment for the version-1 sample: chunk decoding yields
`chunks1`. -/
def env1 : SourceEnv := { envBase with decodeChunksV1 := fun _ => .ok chunks1 }

/-- C1 (counterexample): a version-1 commit batch with one message slot
whose skip bit is set decodes successfully but attaches the message at
global index 1 — outside the claimed window `[0, 1)` — whereas the
ordered list of non-skipped messages in that window is empty.  The
V1/V2 walk drains the set bit and still reads one message, so
`attachedMessages` is not the non-skipped subset of the window. -/
theorem decodeDAV1_skipped_slot_reads_beyond_window :
    decodeDAV1 env1 1 log1 args1 =
      .ok (NewCommitBatchDaV1 1 1 0 bmBytes1 chunks1 [msg1] 20) ∧
    specAttachedMessages env1.readL1Message (bitsOfBytes bmBytes1) 0 1 = [] ∧
    ([msg1] : List L1MessageTx) ≠ [] := by
  refine ⟨by decide, by decide, by decide⟩

/-- C1 (amended): for a version-0 commit batch the decode, on success,
attaches exactly the ordered list of messages at the non-skipped global
indices in `[parentTotalMessagesPopped, parentTotalMessagesPopped + totalSlots)`
(with `totalSlots` the sum of per-block message counts over all chunks,
the walk testing each slot's bit one at a time), and every non-skipped
index of that window has a message in the store.  For versions 1 and 2
the walk instead drains every run of consecutive set bits before each
read: on success it attaches exactly `totalSlots` messages, at the
drain indices (all non-skipped, possibly beyond the window).  In all
three versions a non-skipped index with no message in the store fails
the decode with an error naming that exact index. -/
theorem decode_walk_characterization (env : SourceEnv) (batchIndex : Nat)
    (vLog : Log) (args : CommitBatchArgs) :
    (∀ chunks parent bm,
      env.decodeChunksV0 args.chunks = .ok chunks →
      getBatchTotalL1MessagePopped args.parentBatchHeader = .ok parent →
      decodeBitmap args.skippedL1MessageBitmap (totalL1MessagePoppedOf chunks) = .ok bm →
      (∀ e, decodeDAV0 env batchIndex vLog args = .ok e →
        e = NewCommitBatchDaV0 args.version batchIndex parent args.skippedL1MessageBitmap
              chunks
              (specAttachedMessages env.readL1Message bm parent (totalL1MessagePoppedOf chunks))
              vLog.blockNumber ∧
        ∀ o, o < totalL1MessagePoppedOf chunks → isL1MessageSkipped bm o = false →
          (env.readL1Message (parent + o)).isSome) ∧
      (∀ i, decodeDAV0 env batchIndex vLog args = .err (.missingL1Message i) →
        env.readL1Message i = none ∧ isL1MessageSkipped bm (i - parent) = false ∧
        parent ≤ i ∧ i < parent + totalL1MessagePoppedOf chunks)) ∧
    (∀ chunks vh blob c chunksFilled parent bm,
      env.decodeChunksV1 args.chunks = .ok chunks →
      env.fetchTxBlobHash vLog = .ok vh →
      env.getBlobByVersionedHash vh = .ok blob →
      env.blobToCommitment blob = .ok c →
      env.calcBlobHashV1 c = vh →
      env.decodeTxsFromBlobV1 blob chunks = .ok chunksFilled →
      getBatchTotalL1MessagePopped args.parentBatchHeader = .ok parent →
      decodeBitmap args.skippedL1MessageBitmap (totalL1MessagePoppedOf chunksFilled) = .ok bm →
      (∀ e, decodeDAV1 env batchIndex vLog args = .ok e →
        e = NewCommitBatchDaV1 args.version batchIndex parent args.skippedL1MessageBitmap
              chunksFilled
              ((walkV1Indices bm parent parent (totalL1MessagePoppedOf chunksFilled)).filterMap
                env.readL1Message)
              vLog.blockNumber ∧
        ((walkV1Indices bm parent parent (totalL1MessagePoppedOf chunksFilled)).filterMap
            env.readL1Message).length = totalL1MessagePoppedOf chunksFilled ∧
        ∀ i ∈ walkV1Indices bm parent parent (totalL1MessagePoppedOf chunksFilled),
          isL1MessageSkipped bm (i - parent) = false) ∧
      (∀ i, decodeDAV1 env batchIndex vLog args = .err (.missingL1Message i) →
        env.readL1Message i = none ∧ isL1MessageSkipped bm (i - parent) = false ∧
        parent ≤ i)) ∧
    (∀ chunks vh blob c chunksFilled parent bm,
      env.decodeChunksV2 args.chunks = .ok chunks →
      env.fetchTxBlobHash vLog = .ok vh →
      env.getBlobByVersionedHash vh = .ok blob →
      env.blobToCommitment blob = .ok c →
      env.calcBlobHashV1 c = vh →
      env.decodeTxsFromBlobV2 blob chunks = .ok chunksFilled →
      getBatchTotalL1MessagePopped args.parentBatchHeader = .ok parent →
      decodeBitmap args.skippedL1MessageBitmap (totalL1MessagePoppedOf chunksFilled) = .ok bm →
      (∀ e, decodeDAV2 env batchIndex vLog args = .ok e →
        e = NewCommitBatchDaV2 args.version batchIndex parent args.skippedL1MessageBitmap
              chunksFilled
              ((walkV1Indices bm parent parent (totalL1MessagePoppedOf chunksFilled)).filterMap
                env.readL1Message)
              vLog.blockNumber ∧
        ((walkV1Indices bm parent parent (totalL1MessagePoppedOf chunksFilled)).filterMap
            env.readL1Message).length = totalL1MessagePoppedOf chunksFilled ∧
        ∀ i ∈ walkV1Indices bm parent parent (totalL1MessagePoppedOf chunksFilled),
          isL1MessageSkipped bm (i - parent) = false) ∧
      (∀ i, decodeDAV2 env batchIndex vLog args = .err (.missingL1Message i) →
        env.readL1Message i = none ∧ isL1MessageSkipped bm (i - parent) = false ∧
        parent ≤ i)) := by
  refine ⟨?_, ?_, ?_⟩
  · intro chunks parent bm h0 h1 h2
    constructor
    · intro e he
      simp only [decodeDAV0, h0, h1, h2] at he
      cases hw : walkV0 env.readL1Message bm parent parent (totalL1MessagePoppedOf chunks) []
        with
      | goPanic => rw [hw] at he; cases he
      | err e2 => rw [hw] at he; cases he
      | ok l =>
        rw [hw] at he
        cases he
        have hw0 : walkV0 env.readL1Message bm parent (parent + 0)
            (totalL1MessagePoppedOf chunks) [] = .ok l := by
          rw [Nat.add_zero]; exact hw
        have hl := walkV0_ok_eq env.readL1Message bm parent
          (totalL1MessagePoppedOf chunks) 0 [] l hw0
        simp only [Nat.zero_add, List.nil_append] at hl
        constructor
        · rw [hl]; rfl
        · intro o ho hns
          have := walkV0_ok_present env.readL1Message bm parent
            (totalL1MessagePoppedOf chunks) 0 [] l hw0 o ho
          simp only [Nat.zero_add] at this
          exact this hns
    · intro i hi
      simp only [decodeDAV0, h0, h1, h2] at hi
      cases hw : walkV0 env.readL1Message bm parent parent (totalL1MessagePoppedOf chunks) []
        with
      | goPanic => rw [hw] at hi; cases hi
      | ok l => rw [hw] at hi; cases hi
      | err e2 =>
        rw [hw] at hi
        cases hi
        have hw0 : walkV0 env.readL1Message bm parent (parent + 0)
            (totalL1MessagePoppedOf chunks) [] = .err (.missingL1Message i) := by
          rw [Nat.add_zero]; exact hw
        have := walkV0_err_eq env.readL1Message bm parent
          (totalL1MessagePoppedOf chunks) 0 [] i hw0
        exact ⟨this.1, this.2.1, by omega, by omega⟩
  · intro chunks vh blob c chunksFilled parent bm h0 hfh hgb hbc hv hdt h1 h2
    have hred : decodeDAV1 env batchIndex vLog args =
        match walkV1 env.readL1Message bm parent parent
            (totalL1MessagePoppedOf chunksFilled) [] with
        | .goPanic => .goPanic
        | .err e => .err e
        | .ok l1Txs =>
          .ok (NewCommitBatchDaV1 args.version batchIndex parent
            args.skippedL1MessageBitmap chunksFilled l1Txs vLog.blockNumber) := by
      simp only [decodeDAV1, h0, hfh, hgb, hbc]
      rw [if_neg (by simp [hv])]
      simp only [hdt, h1, h2]
    constructor
    · intro e he
      rw [hred] at he
      cases hw : walkV1 env.readL1Message bm parent parent
          (totalL1MessagePoppedOf chunksFilled) [] with
      | goPanic => rw [hw] at he; cases he
      | err e2 => rw [hw] at he; cases he
      | ok l =>
        rw [hw] at he
        cases he
        have hl := walkV1_ok_eq env.readL1Message bm parent
          (totalL1MessagePoppedOf chunksFilled) parent [] l hw
        refine ⟨?_, ?_, ?_⟩
        · rw [hl.1]; simp
        · exact (filterMap_length_of_isSome env.readL1Message _ hl.2).trans
            (walkV1Indices_length bm parent _ parent)
        · intro i hi
          exact (walkV1Indices_not_skipped bm parent _ parent (Nat.le_refl parent) i hi).1
    · intro i hi
      rw [hred] at hi
      cases hw : walkV1 env.readL1Message bm parent parent
          (totalL1MessagePoppedOf chunksFilled) [] with
      | goPanic => rw [hw] at hi; cases hi
      | ok l => rw [hw] at hi; cases hi
      | err e2 =>
        rw [hw] at hi
        cases hi
        have := walkV1_err_eq env.readL1Message bm parent
          (totalL1MessagePoppedOf chunksFilled) parent [] i (Nat.le_refl parent) hw
        exact this
  · intro chunks vh blob c chunksFilled parent bm h0 hfh hgb hbc hv hdt h1 h2
    have hred : decodeDAV2 env batchIndex vLog args =
        match walkV1 env.readL1Message bm parent parent
            (totalL1MessagePoppedOf chunksFilled) [] with
        | .goPanic => .goPanic
        | .err e => .err e
        | .ok l1Txs =>
          .ok (NewCommitBatchDaV2 args.version batchIndex parent
            args.skippedL1MessageBitmap chunksFilled l1Txs vLog.blockNumber) := by
      simp only [decodeDAV2, h0, hfh, hgb, hbc]
      rw [if_neg (by simp [hv])]
      simp only [hdt, h1, h2]
    constructor
    · intro e he
      rw [hred] at he
      cases hw : walkV1 env.readL1Message bm parent parent
          (totalL1MessagePoppedOf chunksFilled) [] with
      | goPanic => rw [hw] at he; cases he
      | err e2 => rw [hw] at he; cases he
      | ok l =>
        rw [hw] at he
        cases he
        have hl := walkV1_ok_eq env.readL1Message bm parent
          (totalL1MessagePoppedOf chunksFilled) parent [] l hw
        refine ⟨?_, ?_, ?_⟩
        · rw [hl.1]; simp
        · exact (filterMap_length_of_isSome env.readL1Message _ hl.2).trans
            (walkV1Indices_length bm parent _ parent)
        · intro i hi
          exact (walkV1Indices_not_skipped bm parent _ parent (Nat.le_refl parent) i hi).1
    · intro i hi
      rw [hred] at hi
      cases hw : walkV1 env.readL1Message bm parent parent
          (totalL1MessagePoppedOf chunksFilled) [] with
      | goPanic => rw [hw] at hi; cases hi
      | ok l => rw [hw] at hi; cases hi
      | err e2 =>
        rw [hw] at hi
        cases hi
        exact walkV1_err_eq env.readL1Message bm parent
          (totalL1MessagePoppedOf chunksFilled) parent [] i (Nat.le_refl parent) hw

/-- Witness for `decode_walk_characterization`: concrete version-1
decode with one skipped slot, instantiating every hypothesis. -/
theorem decode_walk_characterization_witness :
    env1.decodeChunksV1 args1.chunks = .ok chunks1 ∧
    getBatchTotalL1MessagePopped args1.parentBatchHeader = .ok 0 ∧
    NewCommitBatchDaV1 1 1 0 bmBytes1 chunks1 [msg1] 20 =
      NewCommitBatchDaV1 args1.version 1 0 args1.skippedL1MessageBitmap chunks1
        ((walkV1Indices (bitsOfBytes bmBytes1) 0 0 (totalL1MessagePoppedOf chunks1)).filterMap
          env1.readL1Message) log1.blockNumber := by
  refine ⟨rfl, by decide, ?_⟩
  exact (((decode_walk_characterization env1 1 log1 args1).2.1 chunks1 42 6 7 chunks1 0
    (bitsOfBytes bmBytes1) rfl rfl rfl rfl rfl rfl (by decide) (by decide)).1
    (NewCommitBatchDaV1 1 1 0 bmBytes1 chunks1 [msg1] 20) (by decide)).1

/-- A recomputed-hash mismatch makes `decodeDAV1` fail with the
authenticity error, before any blob-transaction decoding. -/
theorem decodeDAV1_mismatch_aux (env : SourceEnv) (batchIndex : Nat) (vLog : Log)
    (args : CommitBatchArgs) (chunks : List DAChunkRawTx) (vh blob c : Nat)
    (h0 : env.decodeChunksV1 args.chunks = .ok chunks)
    (hfh : env.fetchTxBlobHash vLog = .ok vh)
    (hgb : env.getBlobByVersionedHash vh = .ok blob)
    (hbc : env.blobToCommitment blob = .ok c)
    (hv : env.calcBlobHashV1 c ≠ vh) :
    decodeDAV1 env batchIndex vLog args = .err (.blobHashMismatch vh (env.calcBlobHashV1 c)) := by
  simp only [decodeDAV1, h0, hfh, hgb, hbc]
  rw [if_pos hv]

/-- A recomputed-hash mismatch makes `decodeDAV2` fail with the
authenticity error, before any blob-transaction decoding. -/
theorem decodeDAV2_mismatch_aux (env : SourceEnv) (batchIndex : Nat) (vLog : Log)
    (args : CommitBatchArgs) (chunks : List DAChunkRawTx) (vh blob c : Nat)
    (h0 : env.decodeChunksV2 args.chunks = .ok chunks)
    (hfh : env.fetchTxBlobHash vLog = .ok vh)
    (hgb : env.getBlobByVersionedHash vh = .ok blob)
    (hbc : env.blobToCommitment blob = .ok c)
    (hv : env.calcBlobHashV1 c ≠ vh) :
    decodeDAV2 env batchIndex vLog args = .err (.blobHashMismatch vh (env.calcBlobHashV1 c)) := by
  simp only [decodeDAV2, h0, hfh, hgb, hbc]
  rw [if_pos hv]

/-- A recomputed-hash mismatch makes `NewCommitBatchDAV1WithBlobDecodeFunc`
fail with the authenticity error, for every blob-decode function. -/
theorem commitV1_mismatch_aux (cenv : CommitV1Env) (vLog : Log) (version batchIndex : Nat)
    (parentBatchHeader : List Byte) (chunks : List (List Byte))
    (skippedL1MessageBitmap : List Byte) (chunksD : List DAChunkRawTx)
    (vh t blob c : Nat)
    (h0 : cenv.decodeChunksV1 chunks = .ok chunksD)
    (hfh : cenv.fetchTxBlobHash vLog = .ok vh)
    (hht : cenv.getHeaderTimeByNumber vLog.blockNumber = .ok t)
    (hgb : cenv.getBlobByVersionedHashAndBlockTime vh t = .ok (some blob))
    (hbc : cenv.blobToCommitment blob = .ok c)
    (hv : cenv.calcBlobHashV1 c ≠ vh)
    (f : Nat → List DAChunkRawTx → Except Unit (List DAChunkRawTx)) :
    NewCommitBatchDAV1WithBlobDecodeFunc cenv vLog version batchIndex parentBatchHeader
      chunks skippedL1MessageBitmap f
      = .err (.blobHashMismatch vh (cenv.calcBlobHashV1 c)) := by
  simp only [NewCommitBatchDAV1WithBlobDecodeFunc, h0, hfh, hht, hgb, hbc]
  rw [if_pos hv]

/-- C2: for version-1 and version-2 commit batches (both the
`decodeDAV1`/`decodeDAV2` pipeline and the
`NewCommitBatchDAV1WithBlobDecodeFunc` constructor), the commitment-derived
versioned hash is recomputed from the fetched blob, a mismatch with the
transaction's versioned hash fails hard with the authenticity error —
uniformly in the blob-transaction decode function, which is therefore
never consulted — and a successful decode implies the recomputed hash
equals the transaction's. -/
theorem blob_hash_mismatch_fails (env : SourceEnv) (batchIndex : Nat) (vLog : Log)
    (args : CommitBatchArgs) :
    (∀ chunks vh blob c,
      env.decodeChunksV1 args.chunks = .ok chunks →
      env.fetchTxBlobHash vLog = .ok vh →
      env.getBlobByVersionedHash vh = .ok blob →
      env.blobToCommitment blob = .ok c →
      env.calcBlobHashV1 c ≠ vh →
      decodeDAV1 env batchIndex vLog args
          = .err (.blobHashMismatch vh (env.calcBlobHashV1 c)) ∧
      ∀ f, decodeDAV1 { env with decodeTxsFromBlobV1 := f } batchIndex vLog args
          = .err (.blobHashMismatch vh (env.calcBlobHashV1 c))) ∧
    (∀ chunks vh blob c,
      env.decodeChunksV2 args.chunks = .ok chunks →
      env.fetchTxBlobHash vLog = .ok vh →
      env.getBlobByVersionedHash vh = .ok blob →
      env.blobToCommitment blob = .ok c →
      env.calcBlobHashV1 c ≠ vh →
      decodeDAV2 env batchIndex vLog args
          = .err (.blobHashMismatch vh (env.calcBlobHashV1 c)) ∧
      ∀ f, decodeDAV2 { env with decodeTxsFromBlobV2 := f } batchIndex vLog args
          = .err (.blobHashMismatch vh (env.calcBlobHashV1 c))) ∧
    (∀ chunks vh blob c e,
      env.decodeChunksV1 args.chunks = .ok chunks →
      env.fetchTxBlobHash vLog = .ok vh →
      env.getBlobByVersionedHash vh = .ok blob →
      env.blobToCommitment blob = .ok c →
      decodeDAV1 env batchIndex vLog args = .ok e →
      env.calcBlobHashV1 c = vh) ∧
    (∀ chunks vh blob c e,
      env.decodeChunksV2 args.chunks = .ok chunks →
      env.fetchTxBlobHash vLog = .ok vh →
      env.getBlobByVersionedHash vh = .ok blob →
      env.blobToCommitment blob = .ok c →
      decodeDAV2 env batchIndex vLog args = .ok e →
      env.calcBlobHashV1 c = vh) ∧
    (∀ (cenv : CommitV1Env) (version bi : Nat) (ph : List Byte)
        (chs : List (List Byte)) (sbm : List Byte) (chunksD : List DAChunkRawTx)
        (vh t blob c : Nat),
      cenv.decodeChunksV1 chs = .ok chunksD →
      cenv.fetchTxBlobHash vLog = .ok vh →
      cenv.getHeaderTimeByNumber vLog.blockNumber = .ok t →
      cenv.getBlobByVersionedHashAndBlockTime vh t = .ok (some blob) →
      cenv.blobToCommitment blob = .ok c →
      cenv.calcBlobHashV1 c ≠ vh →
      ∀ f, NewCommitBatchDAV1WithBlobDecodeFunc cenv vLog version bi ph chs sbm f
          = .err (.blobHashMismatch vh (cenv.calcBlobHashV1 c))) := by
  refine ⟨?_, ?_, ?_, ?_, ?_⟩
  · intro chunks vh blob c h0 hfh hgb hbc hv
    exact ⟨decodeDAV1_mismatch_aux env batchIndex vLog args chunks vh blob c h0 hfh hgb hbc hv,
      fun f => decodeDAV1_mismatch_aux { env with decodeTxsFromBlobV1 := f }
        batchIndex vLog args chunks vh blob c h0 hfh hgb hbc hv⟩
  · intro chunks vh blob c h0 hfh hgb hbc hv
    exact ⟨decodeDAV2_mismatch_aux env batchIndex vLog args chunks vh blob c h0 hfh hgb hbc hv,
      fun f => decodeDAV2_mismatch_aux { env with decodeTxsFromBlobV2 := f }
        batchIndex vLog args chunks vh blob c h0 hfh hgb hbc hv⟩
  · intro chunks vh blob c e h0 hfh hgb hbc he
    by_cases hv : env.calcBlobHashV1 c = vh
    · exact hv
    · rw [decodeDAV1_mismatch_aux env batchIndex vLog args chunks vh blob c h0 hfh hgb hbc hv]
        at he
      cases he
  · intro chunks vh blob c e h0 hfh hgb hbc he
    by_cases hv : env.calcBlobHashV1 c = vh
    · exact hv
    · rw [decodeDAV2_mismatch_aux env batchIndex vLog args chunks vh blob c h0 hfh hgb hbc hv]
        at he
      cases he
  · intro cenv version bi ph chs sbm chunksD vh t blob c h0 hfh hht hgb hbc hv f
    exact commitV1_mismatch_aux cenv vLog version bi ph chs sbm chunksD vh t blob c
      h0 hfh hht hgb hbc hv f

/-- A tampered-blob environment: the recomputed hash is 43 while the
transaction's versioned hash is 42. -/
def envMis : SourceEnv :=
  { envBase with
      decodeChunksV1 := fun _ => .ok chunks1
      decodeChunksV2 := fun _ => .ok chunks1
      calcBlobHashV1 := fun _ => 43 }

/-- A tampered-blob environment for the commitV1.go constructor. -/
def cenvMis : CommitV1Env where
  decodeChunksV1 := fun _ => .ok chunks1
  fetchTxBlobHash := fun _ => .ok 42
  getHeaderTimeByNumber := fun _ => .ok 99
  getBlobByVersionedHashAndBlockTime := fun _ _ => .ok (some 6)
  blobToCommitment := fun _ => .ok 7
  calcBlobHashV1 := fun _ => 43
  newCommitBatchDAV0WithChunks := fun _ _ _ _ _ _ => .goPanic

/-- Witness for `blob_hash_mismatch_fails`: the tampered blob makes the
version-1, the version-2 and the commitV1.go decodes fail with the
authenticity error naming both hashes. -/
theorem blob_hash_mismatch_fails_witness :
    decodeDAV1 envMis 1 log1 args1 = .err (.blobHashMismatch 42 43) ∧
    decodeDAV2 envMis 1 log1 args1 = .err (.blobHashMismatch 42 43) ∧
    NewCommitBatchDAV1WithBlobDecodeFunc cenvMis log1 1 1 header25 [] bmBytes1
      (fun _ ch => .ok ch) = .err (.blobHashMismatch 42 43) := by
  refine ⟨?_, ?_, ?_⟩
  · exact ((blob_hash_mismatch_fails envMis 1 log1 args1).1 chunks1 42 6 7
      rfl rfl rfl rfl (by decide)).1
  · exact ((blob_hash_mismatch_fails envMis 1 log1 args1).2.1 chunks1 42 6 7
      rfl rfl rfl rfl (by decide)).1
  · exact (blob_hash_mismatch_fails envMis 1 log1 args1).2.2.2.2 cenvMis 1 1 header25 []
      bmBytes1 chunks1 42 99 6 7 rfl rfl rfl rfl rfl (by decide) (fun _ ch => .ok ch)

/-- `NextData` fully characterised once the finalized height is known:
the effective upper bound is `min (l1height + 500) finalized`; below the
cursor it is the exhausted sentinel. -/
theorem NextData_eq_of_fin (env : SourceEnv) (s fin : Nat)
    (hf : env.getFinalizedBlockNumber = .ok fin) :
    NextData env s =
      if fin < s then (.err .sourceExhausted, s)
      else
        match env.fetchRollupEventsInRange s
            (min (s + callDataBlobSourceFetchBlockRange) fin) with
        | .error _ => (.err .fetchEvents, s)
        | .ok logs =>
          match processLogsToDA env logs with
          | .ok da => (.ok da, min (s + callDataBlobSourceFetchBlockRange) fin + 1)
          | .err e => (.err e, s)
          | .goPanic => (.goPanic, s) := by
  have hmin : (if s + callDataBlobSourceFetchBlockRange > fin then fin
      else s + callDataBlobSourceFetchBlockRange)
      = min (s + callDataBlobSourceFetchBlockRange) fin := by
    rcases Nat.lt_or_ge fin (s + callDataBlobSourceFetchBlockRange) with h | h
    · rw [if_pos h, Nat.min_eq_right (by omega)]
    · rw [if_neg (by omega), Nat.min_eq_left (by omega)]
  simp only [NextData, hf, hmin]
  by_cases hst : fin < s
  · rw [if_pos (by
        have := Nat.min_le_right (s + callDataBlobSourceFetchBlockRange) fin
        omega),
      if_pos hst]
  · rw [if_neg (by
        have h1 : s ≤ min (s + callDataBlobSourceFetchBlockRange) fin :=
          Nat.le_min.mpr ⟨by omega, by omega⟩
        omega),
      if_neg hst]

/-- C3: whenever a `NextData` step is not the exhausted sentinel, the
cursor advances to `to + 1` exactly when the step returned a decoded
range (fetch and decode both succeeded); on any failure the cursor is
returned unchanged, so a retry recomputes the identical range; and a
successful step strictly increases the cursor, so consecutive
successful steps never revisit a completed height. -/
theorem nextData_cursor_advances_iff_success (env : SourceEnv) (s fin : Nat)
    (hf : env.getFinalizedBlockNumber = .ok fin)
    (hne : (NextData env s).1 ≠ .err .sourceExhausted) :
    ((∃ da, (NextData env s).1 = .ok da) ↔
      (NextData env s).2 = min (s + callDataBlobSourceFetchBlockRange) fin + 1) ∧
    ((¬ ∃ da, (NextData env s).1 = .ok da) → (NextData env s).2 = s) ∧
    ((∃ da, (NextData env s).1 = .ok da) → s < (NextData env s).2) := by
  have hN := NextData_eq_of_fin env s fin hf
  by_cases hst : fin < s
  · exfalso
    apply hne
    rw [hN, if_pos hst]
  · have hsle : s ≤ min (s + callDataBlobSourceFetchBlockRange) fin :=
      Nat.le_min.mpr ⟨by omega, by omega⟩
    cases hfetch : env.fetchRollupEventsInRange s
        (min (s + callDataBlobSourceFetchBlockRange) fin) with
    | error u =>
      have hN2 : NextData env s = (.err .fetchEvents, s) := by
        rw [hN, if_neg hst]
        simp only [hfetch]
      rw [hN2]
      refine ⟨⟨fun h => ?_, fun h2 => ?_⟩, fun _ => rfl, fun h => ?_⟩
      · obtain ⟨da, hda⟩ := h; simp at hda
      · exfalso
        have hs2 : s = min (s + callDataBlobSourceFetchBlockRange) fin + 1 := h2
        omega
      · obtain ⟨da, hda⟩ := h; simp at hda
    | ok logs =>
      cases hproc : processLogsToDA env logs with
      | ok da =>
        have hN2 : NextData env s
            = (.ok da, min (s + callDataBlobSourceFetchBlockRange) fin + 1) := by
          rw [hN, if_neg hst]
          simp only [hfetch, hproc]
        rw [hN2]
        refine ⟨⟨fun _ => rfl, fun _ => ⟨da, rfl⟩⟩, fun hno => absurd ⟨da, rfl⟩ hno,
          fun _ => ?_⟩
        have hlt : s < min (s + callDataBlobSourceFetchBlockRange) fin + 1 := by omega
        exact hlt
      | err e =>
        have hN2 : NextData env s = (.err e, s) := by
          rw [hN, if_neg hst]
          simp only [hfetch, hproc]
        rw [hN2]
        refine ⟨⟨fun h => ?_, fun h2 => ?_⟩, fun _ => rfl, fun h => ?_⟩
        · obtain ⟨da, hda⟩ := h; simp at hda
        · exfalso
          have hs2 : s = min (s + callDataBlobSourceFetchBlockRange) fin + 1 := h2
          omega
        · obtain ⟨da, hda⟩ := h; simp at hda
      | goPanic =>
        have hN2 : NextData env s = (.goPanic, s) := by
          rw [hN, if_neg hst]
          simp only [hfetch, hproc]
        rw [hN2]
        refine ⟨⟨fun h => ?_, fun h2 => ?_⟩, fun _ => rfl, fun h => ?_⟩
        · obtain ⟨da, hda⟩ := h; simp at hda
        · exfalso
          have hs2 : s = min (s + callDataBlobSourceFetchBlockRange) fin + 1 := h2
          omega
        · obtain ⟨da, hda⟩ := h; simp at hda

/-- Witness for `nextData_cursor_advances_iff_success`: at cursor 0 with
finalized height 1000 and an empty event range, the step succeeds and
the cursor advances to `min (0 + 500) 1000 + 1 = 501 > 0`. -/
theorem nextData_cursor_advances_iff_success_witness :
    (NextData envBase 0).2 = min (0 + callDataBlobSourceFetchBlockRange) 1000 + 1 ∧
    0 < (NextData envBase 0).2 := by
  constructor
  · exact (nextData_cursor_advances_iff_success envBase 0 1000 rfl (by decide)).1.mp
      ⟨[], by decide⟩
  · exact (nextData_cursor_advances_iff_success envBase 0 1000 rfl (by decide)).2.2
      ⟨[], by decide⟩

/-- C4 (counterexample): at cursor 0 with finalized height 1000 the
code fetches and completes the range `[0, 500]` and advances the cursor
to 501, not to `min (cursor + WINDOW - 1, finalizedHeight) + 1 = 500`
for the fixed configuration constant
`WINDOW = callDataBlobSourceFetchBlockRange = 500`: the upper bound is
`min (cursor + WINDOW, finalizedHeight)`, one block more than the
claim's formula. -/
theorem nextData_window_off_by_one :
    NextData envBase 0 = (.ok [], 501) ∧
    min (0 + callDataBlobSourceFetchBlockRange - 1) 1000 + 1 = 500 ∧
    (NextData envBase 0).2 ≠ min (0 + callDataBlobSourceFetchBlockRange - 1) 1000 + 1 := by
  refine ⟨by decide, by decide, by decide⟩

/-- C4 (amended): each `NextData` step queries the finalized height
fresh and uses the upper bound
`to = min (cursor + callDataBlobSourceFetchBlockRange, finalizedHeight)`
(a window of `WINDOW + 1 = 501` heights, i.e. `min (cursor + 501 - 1, finalized)`);
whenever `finalizedHeight < cursor` it returns the exhausted sentinel
with the cursor unchanged, and otherwise it fetches exactly the range
`[cursor, to]` and advances to `to + 1` only on success. -/
theorem nextData_window_amended (env : SourceEnv) (s fin : Nat)
    (hf : env.getFinalizedBlockNumber = .ok fin) :
    (fin < s → NextData env s = (.err .sourceExhausted, s)) ∧
    (s ≤ fin →
      NextData env s =
        match env.fetchRollupEventsInRange s
            (min (s + callDataBlobSourceFetchBlockRange) fin) with
        | .error _ => (.err .fetchEvents, s)
        | .ok logs =>
          match processLogsToDA env logs with
          | .ok da => (.ok da, min (s + callDataBlobSourceFetchBlockRange) fin + 1)
          | .err e => (.err e, s)
          | .goPanic => (.goPanic, s)) := by
  constructor
  · intro h
    rw [NextData_eq_of_fin env s fin hf, if_pos h]
  · intro h
    rw [NextData_eq_of_fin env s fin hf, if_neg (by omega)]

/-- Witness for `nextData_window_amended`: both branches at concrete
heights — exhausted at cursor 5 with finalized height 3, and the
successful 501-height window at cursor 0 with finalized height 1000. -/
theorem nextData_window_amended_witness :
    NextData { envBase with getFinalizedBlockNumber := .ok 3 } 5
      = (.err .sourceExhausted, 5) ∧
    NextData envBase 0 = (.ok [], min (0 + callDataBlobSourceFetchBlockRange) 1000 + 1) := by
  constructor
  · exact (nextData_window_amended { envBase with getFinalizedBlockNumber := .ok 3 } 5 3
      rfl).1 (by omega)
  · rw [(nextData_window_amended envBase 0 1000 rfl).2 (by omega)]
    decide

/-- An environment whose commit call resolves to the
`commitBatchWithBlobProof` shape carrying version 99, with a V2 blob
pipeline that succeeds on an empty chunk list. -/
def env5 : SourceEnv :=
  { envBase with
      fetchTxData := fun _ => .ok [9, 9, 9, 9]
      methodById := fun _ => .ok .commitBatchWithBlobProof
      unpackCommitBatchWithProof := fun _ => .ok ⟨99, header25, [], [], []⟩
      decodeChunksV2 := fun _ => .ok [] }

/-- The same call resolved to the plain `commitBatch` shape with
version 7. -/
def env5b : SourceEnv :=
  { env5 with
      methodById := fun _ => .ok .commitBatch
      unpackCommitBatch := fun _ => .ok ⟨7, header25, [], []⟩ }

/-- C5 (counterexample): a `commitBatchWithBlobProof` call whose
version field is 99 — not 0, 1 or 2 — does not fail with the
unrecognized-version error: the code sends the normalized arguments
straight to `decodeDAV2` without inspecting the version, and here that
decode succeeds. -/
theorem blobProof_shape_skips_version_dispatch :
    env5.unpackCommitBatchWithProof (([9, 9, 9, 9] : List Byte).drop 4)
      = .ok ⟨99, header25, [], [], []⟩ ∧
    getCommitBatchDa env5 1 log1 = .ok (NewCommitBatchDaV2 99 1 0 [] [] [] 20) ∧
    getCommitBatchDa env5 1 log1 ≠ .err (.unknownCodecVersion 99) := by
  refine ⟨rfl, by decide, by decide⟩

/-- C5 (amended): a non-genesis commit call is classified by its 4-byte
selector into one of the two method shapes; the plain `commitBatch`
shape dispatches on the version field with versions 0, 1, 2 handled and
any other version failing with the unrecognized-version error; the
`commitBatchWithBlobProof` shape is normalized into the same argument
record with the proof field dropped and is always decoded by
`decodeDAV2`, without inspecting its version field. -/
theorem commit_dispatch_amended (env : SourceEnv) (batchIndex : Nat) (vLog : Log)
    (txData : List Byte)
    (hbi : batchIndex ≠ 0)
    (htd : env.fetchTxData vLog = .ok txData)
    (hlen : ¬ txData.length < 4) :
    (∀ args,
      env.methodById (txData.take 4) = .ok .commitBatch →
      env.unpackCommitBatch (txData.drop 4) = .ok args →
      getCommitBatchDa env batchIndex vLog =
        match args.version with
        | 0 => decodeDAV0 env batchIndex vLog args
        | 1 => decodeDAV1 env batchIndex vLog args
        | 2 => decodeDAV2 env batchIndex vLog args
        | v => .err (.unknownCodecVersion v)) ∧
    (∀ pargs,
      env.methodById (txData.take 4) = .ok .commitBatchWithBlobProof →
      env.unpackCommitBatchWithProof (txData.drop 4) = .ok pargs →
      getCommitBatchDa env batchIndex vLog
        = decodeDAV2 env batchIndex vLog (usedArgsOf pargs)) := by
  constructor
  · intro args hm hu
    simp only [getCommitBatchDa, if_neg hbi, htd, if_neg hlen, hm, hu]
  · intro pargs hm hu
    simp only [getCommitBatchDa, if_neg hbi, htd, if_neg hlen, hm, hu]

/-- Witness for `commit_dispatch_amended`: the plain shape with version
7 fails with the unrecognized-version error, while the blob-proof shape
with version 99 goes to `decodeDAV2`. -/
theorem commit_dispatch_amended_witness :
    getCommitBatchDa env5b 1 log1 = .err (.unknownCodecVersion 7) ∧
    getCommitBatchDa env5 1 log1
      = decodeDAV2 env5 1 log1 (usedArgsOf ⟨99, header25, [], [], []⟩) := by
  constructor
  · rw [(commit_dispatch_amended env5b 1 log1 [9, 9, 9, 9] (by decide) rfl (by decide)).1
      ⟨7, header25, [], []⟩ rfl rfl]
  · exact (commit_dispatch_amended env5 1 log1 [9, 9, 9, 9] (by decide) rfl (by decide)).2
      ⟨99, header25, [], [], []⟩ rfl rfl

/-- C6: a commit event with `batchIndex = 0` returns the empty genesis
BatchCommit — version 0, no chunks, no attached messages — identically
for every oracle environment and every log context, i.e. without
fetching transaction data, decoding arguments, or any other external
call. -/
theorem genesis_commit_empty_no_calls (env env2 : SourceEnv) (vLog vLog2 : Log) :
    getCommitBatchDa env 0 vLog = .ok (NewCommitBatchDaV0 0 0 0 [] [] [] 0) ∧
    getCommitBatchDa env 0 vLog = getCommitBatchDa env2 0 vLog2 :=
  ⟨rfl, rfl⟩

/-- The `processLogsToDA` loop, relative to an accumulator: on success
the produced suffix has one entry per log, in log order. -/
theorem processLogsToDAAux_ok (env : SourceEnv) :
    ∀ (logs : List Log) (acc das : List DAEntry),
      processLogsToDAAux env acc logs = .ok das →
      ∃ rest, das = acc ++ rest ∧ rest.length = logs.length ∧
        ∀ (i : Nat) (l : Log), logs[i]? = some l →
          ∃ e, rest[i]? = some e ∧ processLog env l = .ok e := by
  intro logs
  induction logs with
  | nil =>
    intro acc das h
    simp only [processLogsToDAAux] at h
    cases h
    exact ⟨[], by simp, rfl, fun i l hl => by simp at hl⟩
  | cons lg tail ih =>
    intro acc das h
    simp only [processLogsToDAAux] at h
    cases hp : processLog env lg with
    | goPanic => rw [hp] at h; cases h
    | err e => rw [hp] at h; cases h
    | ok daEntry =>
      rw [hp] at h
      obtain ⟨r, hr1, hr2, hr3⟩ := ih (acc ++ [daEntry]) das h
      refine ⟨daEntry :: r, ?_, by simp [hr2], ?_⟩
      · rw [hr1]; simp
      · intro i l hl
        cases i with
        | zero =>
          simp only [List.getElem?_cons_zero, Option.some.injEq] at hl
          exact ⟨daEntry, by simp, by rw [← hl]; exact hp⟩
        | succ j =>
          simp only [List.getElem?_cons_succ] at hl
          obtain ⟨e, he1, he2⟩ := hr3 j l hl
          exact ⟨e, by simpa using he1, he2⟩

/-- C7: when the dispatcher processes a list of logs successfully, it
produces exactly one DA entry per input log, in the same relative
order: entry `i` is the entry produced from log `i`. -/
theorem processLogs_one_entry_per_log_in_order (env : SourceEnv) (logs : List Log)
    (das : List DAEntry) (h : processLogsToDA env logs = .ok das) :
    das.length = logs.length ∧
    ∀ (i : Nat) (l : Log), logs[i]? = some l →
      ∃ e, das[i]? = some e ∧ processLog env l = .ok e := by
  obtain ⟨rest, hr1, hr2, hr3⟩ := processLogsToDAAux_ok env logs [] das h
  simp only [List.nil_append] at hr1
  subst hr1
  exact ⟨hr2, hr3⟩

/-- Witness for `processLogs_one_entry_per_log_in_order`: one revert
log produces exactly one entry. -/
theorem processLogs_one_entry_per_log_in_order_witness :
    processLogsToDA envBase [⟨2, 7, 5⟩] = .ok [NewRevertBatchDA 5] ∧
    ([NewRevertBatchDA 5] : List DAEntry).length = [(⟨2, 7, 5⟩ : Log)].length := by
  refine ⟨by decide, ?_⟩
  exact (processLogs_one_entry_per_log_in_order envBase [⟨2, 7, 5⟩] [NewRevertBatchDA 5]
    (by decide)).1

/-- A modelled source that reports the exhausted sentinel, with
`L1Height() = 4` afterwards. -/
def exhaustSource : QSource := ⟨.err .sourceExhausted, 4⟩

/-- A modelled source whose step succeeds with one entry. -/
def successSource : QSource := ⟨.ok [NewFinalizeBatchDA 1], 9⟩

/-- A factory stream of `n` exhausted sources followed by one
successful source. -/
def exhaustStream (n : Nat) : List (Except Unit QSource) :=
  List.replicate n (.ok exhaustSource) ++ [.ok successSource]

/-- Unfolding one exhausted source from the head of the stream adds one
nested `getNextData` invocation. -/
theorem getNextDataAux_exhaust_step (h m : Nat) :
    getNextDataAux h (.ok exhaustSource :: exhaustStream m)
      = ((getNextDataAux 4 (exhaustStream m)).1,
         (getNextDataAux 4 (exhaustStream m)).2 + 1) := by
  simp only [getNextDataAux, exhaustSource]

/-- The recursion depth of `getNextData` on `n` consecutive exhausted
sources is `n + 1`. -/
theorem getNextDataAux_exhaust_depth :
    ∀ (n h : Nat), (getNextDataAux h (exhaustStream n)).2 = n + 1 := by
  intro n
  induction n with
  | zero => intro h; rfl
  | succ m ih =>
    intro h
    have hcons : exhaustStream (m + 1) = .ok exhaustSource :: exhaustStream m := by
      simp [exhaustStream, List.replicate_succ]
    rw [hcons, getNextDataAux_exhaust_step h m, ih 4]

/-- C8 (counterexample): the claim's bounded-call-stack-depth property
is false: the number of nested `getNextData` invocations on `n`
consecutive exhausted results is `n + 1`, which exceeds every bound. -/
theorem getNextData_recursion_depth_unbounded :
    ¬ ∃ B : Nat, ∀ n : Nat,
      (getNextData ⟨0, none, []⟩ (exhaustStream n)).2 ≤ B := by
  rintro ⟨B, hB⟩
  have h1 := hB (B + 1)
  have h2 : (getNextData ⟨0, none, []⟩ (exhaustStream (B + 1))).2 = B + 2 :=
    getNextDataAux_exhaust_depth (B + 1) 0
  omega

/-- C8 (amended): when the open source reports the exhausted sentinel,
the refill captures the source's advanced cursor (`L1Height()`) as the
new watermark, discards the source, and retries — but by calling
`getNextData` recursively, so a run of `n` consecutive exhausted
results nests `n + 1` invocations: the call-stack depth grows linearly
with the run, it is not bounded. -/
theorem getNextData_exhausted_amended (st : QState) (src : QSource)
    (stream : List (Except Unit QSource))
    (h1 : st.dataSource = some src)
    (h2 : src.nextResult = .err .sourceExhausted) :
    getNextData st stream
      = ((getNextData ⟨src.l1HeightAfter, none, st.da⟩ stream).1,
         (getNextData ⟨src.l1HeightAfter, none, st.da⟩ stream).2 + 1) ∧
    ∀ n : Nat, (getNextData ⟨0, none, []⟩ (exhaustStream n)).2 = n + 1 := by
  constructor
  · simp only [getNextData, h1, h2]
  · intro n
    exact getNextDataAux_exhaust_depth n 0

/-- Witness for `getNextData_exhausted_amended`: a queue state holding
an exhausted source at watermark 3 retries at the source's height 4
with one extra nesting level. -/
theorem getNextData_exhausted_amended_witness :
    getNextData ⟨3, some exhaustSource, []⟩ (exhaustStream 0)
      = ((getNextData ⟨4, none, []⟩ (exhaustStream 0)).1,
         (getNextData ⟨4, none, []⟩ (exhaustStream 0)).2 + 1) :=
  (getNextData_exhausted_amended ⟨3, some exhaustSource, []⟩ exhaustSource
    (exhaustStream 0) rfl rfl).1

/-- C9: the revert and finalize constructors do not record the source
block number: a RevertBatch log at block 7 and a FinalizeBatch log at
block 8 produce entries whose `GetL1BlockNumber` is 0, Go's zero value,
not the originating log's block number. -/
theorem revert_finalize_block_number_zero :
    processLogsToDA envBase [⟨2, 7, 5⟩, ⟨3, 8, 6⟩]
      = .ok [NewRevertBatchDA 5, NewFinalizeBatchDA 6] ∧
    (NewRevertBatchDA 5).GetL1BlockNumber = 0 ∧
    (NewFinalizeBatchDA 6).GetL1BlockNumber = 0 ∧
    (⟨2, 7, 5⟩ : Log).blockNumber = 7 ∧
    (⟨3, 8, 6⟩ : Log).blockNumber = 8 ∧
    (NewRevertBatchDA 5).GetL1BlockNumber ≠ (⟨2, 7, 5⟩ : Log).blockNumber ∧
    (NewFinalizeBatchDA 6).GetL1BlockNumber ≠ (⟨3, 8, 6⟩ : Log).blockNumber := by
  decide

/-- Version-0 arguments whose parent batch header is empty. -/
def args10 : CommitBatchArgs := ⟨0, [], [], []⟩

/-- An environment whose V0 chunk decode succeeds on the empty list. -/
def env10 : SourceEnv := { envBase with decodeChunksV0 := fun _ => .ok [] }

/-- C10: the parent-header field read is not total: on a header shorter
than 25 bytes `getBatchTotalL1MessagePopped` slices out of range, a Go
runtime panic, so `decodeDAV0` on an empty parent header crashes
instead of returning any decoding error. -/
theorem short_parent_header_panics :
    getBatchTotalL1MessagePopped [] = .goPanic ∧
    args10.parentBatchHeader.length < 25 ∧
    decodeDAV0 env10 1 log1 args10 = .goPanic ∧
    ∀ e : DecErr, decodeDAV0 env10 1 log1 args10 ≠ .err e := by
  refine ⟨by decide, by decide, by decide, ?_⟩
  intro e h
  have hp : decodeDAV0 env10 1 log1 args10 = .goPanic := by decide
  rw [hp] at h
  simp at h
